import Mathlib

/-!
Verification of the `os` prompt segment: symbol-table construction
(`deserialize_symbols`, `OSConfig::default`), symbol resolution
(`get_symbol`), the attribute accessors (`get_bitness`, `get_codename`,
`get_edition`, `get_version`) and the `module` entry point.

The Rust `IndexMap<String, &str>` is embedded as an ordered association
list `List (String × String)`; `imGet`, `imInsert` and `imCollect` model
`IndexMap::get`, `IndexMap::insert` and `FromIterator::collect`
(repeated insertion, where inserting an existing key overwrites its value
in place).  Rust's `str::to_lowercase` is embedded character-wise with
`Char.toLower`.
-/

/-- Model of `str::to_lowercase`: lowercase every character. -/
def toLowercase (s : String) : String :=
  String.mk (s.data.map Char.toLower)

/-- Model of `IndexMap::get`: the value of the entry with the given key. -/
def imGet (m : List (String × String)) (k : String) : Option String :=
  (m.find? (fun p => p.1 == k)).map (fun p => p.2)

/-- Model of `IndexMap::insert`: overwrite the value in place when the key
is already present, otherwise append the new entry at the end. -/
def imInsert (m : List (String × String)) (k v : String) :
    List (String × String) :=
  if m.any (fun p => p.1 == k) then
    m.map (fun p => if p.1 == k then (k, v) else p)
  else
    m ++ [(k, v)]

/-- Model of collecting an iterator of pairs into an `IndexMap`:
repeated insertion starting from the empty map. -/
def imCollect (l : List (String × String)) : List (String × String) :=
  l.foldl (fun m p => imInsert m p.1 p.2) []

/-- Embedding of `deserialize_symbols` (src/configs/os.rs): lowercase the
keys of the deserialized map, keeping the values unchanged, and collect
the result back into an `IndexMap`. -/
def deserialize_symbols (index_map : List (String × String)) :
    List (String × String) :=
  imCollect (index_map.map (fun p => (toLowercase p.1, p.2)))

/-- Embedding of the `OSConfig` struct (src/configs/os.rs). -/
structure OSConfig where
  format : String
  style : String
  symbols : List (String × String)
  disabled : Bool

/-- Embedding of `OSConfig::get_symbol` (src/configs/os.rs): lowercase the
key, then look it up in the symbol table. -/
def OSConfig.get_symbol (c : OSConfig) (key : String) : Option String :=
  imGet c.symbols (toLowercase key)

/-- Embedding of `os_info::Type`, the fixed enumeration of OS families
produced by the attribute reader. -/
inductive OsType where
  | Alpine | Amazon | Android | Arch | CentOS | Debian | DragonFly
  | Emscripten | EndeavourOS | Fedora | FreeBSD | Garuda | Gentoo
  | HardenedBSD | Illumos | Linux | Macos | Manjaro | Mariner
  | MidnightBSD | Mint | NetBSD | NixOS | OpenBSD | openSUSE
  | OracleLinux | Pop | Raspbian | Redhat | RedHatEnterprise | Redox
  | Solus | SUSE | Ubuntu | Unknown | Windows
deriving DecidableEq

/-- The `Debug` rendering of `os_info::Type` used by
`format!("\x7b:?\x7d", os.os_type())` in src/modules/os.rs: the variant
name, verbatim. -/
def OsType.debugFormat : OsType → String
  | .Alpine => "Alpine"
  | .Amazon => "Amazon"
  | .Android => "Android"
  | .Arch => "Arch"
  | .CentOS => "CentOS"
  | .Debian => "Debian"
  | .DragonFly => "DragonFly"
  | .Emscripten => "Emscripten"
  | .EndeavourOS => "EndeavourOS"
  | .Fedora => "Fedora"
  | .FreeBSD => "FreeBSD"
  | .Garuda => "Garuda"
  | .Gentoo => "Gentoo"
  | .HardenedBSD => "HardenedBSD"
  | .Illumos => "Illumos"
  | .Linux => "Linux"
  | .Macos => "Macos"
  | .Manjaro => "Manjaro"
  | .Mariner => "Mariner"
  | .MidnightBSD => "MidnightBSD"
  | .Mint => "Mint"
  | .NetBSD => "NetBSD"
  | .NixOS => "NixOS"
  | .OpenBSD => "OpenBSD"
  | .openSUSE => "openSUSE"
  | .OracleLinux => "OracleLinux"
  | .Pop => "Pop"
  | .Raspbian => "Raspbian"
  | .Redhat => "Redhat"
  | .RedHatEnterprise => "RedHatEnterprise"
  | .Redox => "Redox"
  | .Solus => "Solus"
  | .SUSE => "SUSE"
  | .Ubuntu => "Ubuntu"
  | .Unknown => "Unknown"
  | .Windows => "Windows"

/-- Embedding of `os_info::Bitness`. -/
inductive Bitness where
  | X32 | X64 | Unknown
deriving DecidableEq

/-- The `Display` rendering of `os_info::Bitness`. -/
def Bitness.displayStr : Bitness → String
  | .X32 => "32-bit"
  | .X64 => "64-bit"
  | .Unknown => "unknown bitness"

/-- Embedding of `os_info::Version`. -/
inductive Version where
  | Unknown
  | Semantic (major minor patch : Nat)
  | Rolling (codename : Option String)
  | Custom (text : String)
deriving DecidableEq

/-- The `Display` rendering of `os_info::Version`; the `Unknown` sentinel
renders as the literal string "Unknown". -/
def Version.displayStr : Version → String
  | .Unknown => "Unknown"
  | .Semantic major minor patch =>
      toString major ++ "." ++ toString minor ++ "." ++ toString patch
  | .Rolling (some c) => c
  | .Rolling none => "Rolling Release"
  | .Custom text => text

/-- Embedding of `os_info::Info`, the OS descriptor produced by the
attribute reader. -/
structure Info where
  os_type : OsType
  bitness : Bitness
  version : Version
  codename : Option String
  edition : Option String
deriving DecidableEq

/-- Embedding of `os_info::Info::unknown` (also `Info::default`). -/
def Info.unknown : Info :=
  { os_type := OsType.Unknown
    bitness := Bitness.Unknown
    version := Version.Unknown
    codename := none
    edition := none }

/-- Embedding of `os_info::Info::with_type`. -/
def Info.with_type (t : OsType) : Info :=
  { Info.unknown with os_type := t }

/-- Embedding of `OSConfig::default` (src/configs/os.rs): the built-in
default symbol table, whose keys are written capitalized in the source
and lowercased at construction. -/
def OSConfig.default : OSConfig :=
  { format := "[$symbol]($style)"
    style := "bold white"
    symbols :=
      [ (toLowercase "Alpine", "🏔️ ")
      , (toLowercase "Amazon", "🙂 ")
      , (toLowercase "Android", "🤖 ")
      , (toLowercase "Arch", "🎗️ ")
      , (toLowercase "CentOS", "💠 ")
      , (toLowercase "Debian", "🌀 ")
      , (toLowercase "DragonFly", "🐉 ")
      , (toLowercase "Emscripten", "🔗 ")
      , (toLowercase "EndeavourOS", "🚀 ")
      , (toLowercase "Fedora", "🎩 ")
      , (toLowercase "FreeBSD", "😈 ")
      , (toLowercase "Garuda", "🦅 ")
      , (toLowercase "Gentoo", "🗜️ ")
      , (toLowercase "HardenedBSD", "🛡️ ")
      , (toLowercase "Illumos", "🐦 ")
      , (toLowercase "Linux", "🐧 ")
      , (toLowercase "Macos", "🍎 ")
      , (toLowercase "Manjaro", "🥭 ")
      , (toLowercase "Mariner", "🌊 ")
      , (toLowercase "MidnightBSD", "🌘 ")
      , (toLowercase "Mint", "🌿 ")
      , (toLowercase "NetBSD", "🚩 ")
      , (toLowercase "NixOS", "❄️ ")
      , (toLowercase "OpenBSD", "🐡 ")
      , (toLowercase "openSUSE", "🦎 ")
      , (toLowercase "OracleLinux", "🦴 ")
      , (toLowercase "Pop", "🍭 ")
      , (toLowercase "Raspbian", "🍓 ")
      , (toLowercase "Redhat", "🎩 ")
      , (toLowercase "RedHatEnterprise", "🎩 ")
      , (toLowercase "Redox", "🧪 ")
      , (toLowercase "Solus", "⛵ ")
      , (toLowercase "SUSE", "🦎 ")
      , (toLowercase "Ubuntu", "🎯 ")
      , (toLowercase "Unknown", "❓ ")
      , (toLowercase "Windows", "🪟 ") ]
    disabled := true }

/-- Embedding of the module-level `get_symbol` (src/modules/os.rs): the
lookup key is the `Debug` rendering of the OS type, used as-is; the
user-supplied table is consulted first, and on a miss the default table
is consulted with the same key. -/
def get_symbol (config : OSConfig) (os : Info) : Option String :=
  let key := os.os_type.debugFormat
  (imGet config.symbols key).orElse
    (fun _ => imGet OSConfig.default.symbols key)

/-- Embedding of `get_bitness` (src/modules/os.rs): the bitness, filtered
against the `Unknown` sentinel, then rendered. -/
def get_bitness (os : Info) : Option String :=
  ((some os.bitness).filter (fun x => x != Bitness.Unknown)).map
    Bitness.displayStr

/-- Embedding of `get_codename` (src/modules/os.rs). -/
def get_codename (os : Info) : Option String :=
  os.codename.map (fun s => s)

/-- Embedding of `get_edition` (src/modules/os.rs). -/
def get_edition (os : Info) : Option String :=
  os.edition.map (fun s => s)

/-- Embedding of `get_version` (src/modules/os.rs): the version, filtered
against the `Unknown` sentinel, then rendered. -/
def get_version (os : Info) : Option String :=
  ((some os.version).filter (fun x => x != Version.Unknown)).map
    Version.displayStr

/-- Modelled from the spec: the external `StringFormatter` template
engine is not part of this repository's sources.  A pipeline value
abstracts `StringFormatter::new(config.format)` composed with the
variable mappers and `parse`: given the configuration and the OS
descriptor it either produces the list of rendered segments or a
template error. -/
def FormatterPipeline : Type :=
  OSConfig → Info → Except String (List String)

/-- Output of the `module` function: a module carrying its segments. -/
structure ModuleOut where
  segments : List String
deriving DecidableEq

/-- Embedding of `module` (src/modules/os.rs): load the configuration,
return `none` immediately when disabled (before the OS descriptor is
obtained), otherwise run the formatter pipeline; a formatter error is
logged and yields `none`, success yields the module with its segments. -/
def module (pipeline : FormatterPipeline) (config : OSConfig) (os : Info) :
    Option ModuleOut :=
  if config.disabled then none
  else
    match pipeline config os with
    | Except.ok segments => some { segments := segments }
    | Except.error _ => none

example : toLowercase "Arch" = "arch" := by rfl
example : imGet OSConfig.default.symbols "arch" = some "🎗️ " := by rfl
example : imGet OSConfig.default.symbols "Arch" = none := by rfl
example : get_symbol OSConfig.default (Info.with_type OsType.Arch) = none := by rfl
example : OSConfig.default.get_symbol "Arch" = some "🎗️ " := by rfl
example : deserialize_symbols [("Arch", "a"), ("arch", "b")] = [("arch", "b")] := by rfl

/-! ### Helper lemmas about the `IndexMap` model -/

theorem find?_replace_self (t : List (String × String)) (k v : String)
    (h : t.any (fun p => p.1 == k) = true) :
    (t.map (fun p => if p.1 == k then (k, v) else p)).find?
      (fun p => p.1 == k) = some (k, v) := by
  induction t with
  | nil => simp at h
  | cons p t ih =>
    rw [List.map_cons]
    by_cases hp : p.1 = k
    · rw [if_pos (by simpa using hp), List.find?_cons_of_pos _ (by simp)]
    · have ht : t.any (fun p => p.1 == k) = true := by
        simp only [List.any_cons, Bool.or_eq_true] at h
        rcases h with h | h
        · exact absurd (by simpa using h) hp
        · exact h
      rw [if_neg (by simpa using hp),
        List.find?_cons_of_neg _ (by simpa using hp), ih ht]

theorem find?_replace_other (t : List (String × String)) (k v k' : String)
    (hk : k' ≠ k) :
    (t.map (fun p => if p.1 == k then (k, v) else p)).find?
      (fun p => p.1 == k') = t.find? (fun p => p.1 == k') := by
  induction t with
  | nil => rfl
  | cons p t ih =>
    rw [List.map_cons]
    by_cases hp : p.1 = k
    · rw [if_pos (by simpa using hp),
        List.find?_cons_of_neg _ (by simpa using Ne.symm hk),
        List.find?_cons_of_neg _ (by simp [hp, Ne.symm hk]), ih]
    · by_cases hp' : p.1 = k'
      · rw [if_neg (by simpa using hp),
          List.find?_cons_of_pos _ (by simpa using hp'),
          List.find?_cons_of_pos _ (by simpa using hp')]
      · rw [if_neg (by simpa using hp),
          List.find?_cons_of_neg _ (by simpa using hp'),
          List.find?_cons_of_neg _ (by simpa using hp'), ih]

theorem find?_key_eq_none (m : List (String × String)) (k : String)
    (h : ¬m.any (fun p => p.1 == k) = true) :
    m.find? (fun p => p.1 == k) = none := by
  rw [List.find?_eq_none]
  intro x hx hpx
  exact h (List.any_eq_true.mpr ⟨x, hx, hpx⟩)

theorem imGet_insert (m : List (String × String)) (k v k' : String) :
    imGet (imInsert m k v) k' = if k' = k then some v else imGet m k' := by
  by_cases hk : k' = k
  · subst hk
    rw [if_pos rfl]
    unfold imInsert
    by_cases hany : m.any (fun p => p.1 == k') = true
    · rw [if_pos hany, imGet, find?_replace_self m k' v hany]
      rfl
    · rw [if_neg hany, imGet, List.find?_append, find?_key_eq_none m k' hany]
      simp
  · rw [if_neg hk]
    unfold imInsert
    by_cases hany : m.any (fun p => p.1 == k) = true
    · rw [if_pos hany, imGet, find?_replace_other m k v k' hk, imGet]
    · rw [if_neg hany, imGet, List.find?_append]
      have hsingle : ([(k, v)]).find? (fun p => p.1 == k') = none := by
        simp [Ne.symm hk]
      rw [hsingle, imGet]
      cases m.find? (fun p => p.1 == k') <;> simp

theorem imGet_foldl (l : List (String × String))
    (m : List (String × String)) (k : String) :
    imGet (l.foldl (fun m p => imInsert m p.1 p.2) m) k
      = ((l.reverse.find? (fun p => p.1 == k)).map (fun p => p.2)).or
          (imGet m k) := by
  induction l generalizing m with
  | nil => simp
  | cons p t ih =>
    rw [List.foldl_cons, ih, imGet_insert, List.reverse_cons,
      List.find?_append]
    cases hfind : t.reverse.find? (fun q => q.1 == k) with
    | some q => simp
    | none =>
      by_cases hk : k = p.1
      · simp [hk]
      · simp [Ne.symm hk, hk]

theorem imGet_imCollect (l : List (String × String)) (k : String) :
    imGet (imCollect l) k
      = (l.reverse.find? (fun p => p.1 == k)).map (fun p => p.2) := by
  rw [imCollect, imGet_foldl]
  cases (l.reverse.find? (fun p => p.1 == k)).map (fun p => p.2) <;>
    simp [imGet]

theorem imGet_deserialize_symbols (raw : List (String × String))
    (k : String) :
    imGet (deserialize_symbols raw) k
      = (raw.reverse.find? (fun p => toLowercase p.1 == k)).map
          (fun p => p.2) := by
  rw [deserialize_symbols, imGet_imCollect, ← List.map_reverse,
    List.find?_map]
  rw [Option.map_map]
  rfl

theorem keys_imInsert (m : List (String × String)) (k v : String) :
    (imInsert m k v).map (fun p => p.1)
      = if m.any (fun p => p.1 == k) then m.map (fun p => p.1)
        else m.map (fun p => p.1) ++ [k] := by
  unfold imInsert
  by_cases hany : m.any (fun p => p.1 == k) = true
  · rw [if_pos hany, if_pos hany, List.map_map]
    refine List.map_congr_left ?_
    intro p hp
    by_cases hp1 : p.1 = k
    · simp [hp1]
    · simp [hp1]
  · rw [if_neg hany, if_neg hany, List.map_append]
    rfl

theorem nodup_keys_imInsert (m : List (String × String)) (k v : String)
    (h : (m.map (fun p => p.1)).Nodup) :
    ((imInsert m k v).map (fun p => p.1)).Nodup := by
  rw [keys_imInsert]
  by_cases hany : m.any (fun p => p.1 == k) = true
  · rwa [if_pos hany]
  · rw [if_neg hany]
    refine List.Nodup.append h (List.nodup_singleton k) ?_
    intro a ha hb
    rw [List.mem_singleton] at hb
    subst hb
    obtain ⟨q, hq, hq1⟩ := List.mem_map.mp ha
    exact hany (List.any_eq_true.mpr ⟨q, hq, by simpa using hq1⟩)

theorem nodup_keys_foldl (l : List (String × String))
    (m : List (String × String)) (h : (m.map (fun p => p.1)).Nodup) :
    ((l.foldl (fun m p => imInsert m p.1 p.2) m).map (fun p => p.1)).Nodup := by
  induction l generalizing m with
  | nil => exact h
  | cons p t ih => exact ih _ (nodup_keys_imInsert m p.1 p.2 h)

theorem nodup_keys_deserialize_symbols (raw : List (String × String)) :
    ((deserialize_symbols raw).map (fun p => p.1)).Nodup := by
  rw [deserialize_symbols, imCollect]
  exact nodup_keys_foldl _ [] List.nodup_nil

theorem mem_keys_foldl (l : List (String × String))
    (m : List (String × String)) (p : String × String)
    (h : p ∈ l.foldl (fun m p => imInsert m p.1 p.2) m) :
    p.1 ∈ m.map (fun q => q.1) ∨ p.1 ∈ l.map (fun q => q.1) := by
  induction l generalizing m with
  | nil => exact Or.inl (List.mem_map_of_mem _ h)
  | cons q t ih =>
    rw [List.foldl_cons] at h
    rcases ih (imInsert m q.1 q.2) h with h1 | h1
    · rw [keys_imInsert] at h1
      by_cases hany : m.any (fun r => r.1 == q.1) = true
      · rw [if_pos hany] at h1
        exact Or.inl h1
      · rw [if_neg hany] at h1
        rcases List.mem_append.mp h1 with h2 | h2
        · exact Or.inl h2
        · rw [List.mem_singleton] at h2
          exact Or.inr (by rw [List.map_cons, h2]; exact List.mem_cons_self _ _)
    · exact Or.inr (by rw [List.map_cons]; exact List.mem_cons_of_mem _ h1)

theorem Char.toLower_eq_self (c : Char) (h : ¬(65 ≤ c.toNat ∧ c.toNat ≤ 90)) :
    c.toLower = c := by
  show (if c.toNat ≥ 65 ∧ c.toNat ≤ 90 then Char.ofNat (c.toNat + 32) else c) = c
  exact if_neg h

theorem Char.toNat_toLower_of_upper (c : Char)
    (h : 65 ≤ c.toNat ∧ c.toNat ≤ 90) :
    (Char.toLower c).toNat = c.toNat + 32 := by
  show (if c.toNat ≥ 65 ∧ c.toNat ≤ 90 then Char.ofNat (c.toNat + 32) else c).toNat = _
  rw [if_pos h]
  have hv : (c.toNat + 32).isValidChar := Or.inl (by omega)
  show (dite ((c.toNat + 32).isValidChar) (fun h => Char.ofNatAux _ h)
    (fun _ => { val := ⟨BitVec.ofNatLt 0 (by decide)⟩, valid := Or.inl (by decide) })).toNat = _
  rw [dif_pos hv]
  rfl

theorem Char.toLower_toLower (c : Char) : c.toLower.toLower = c.toLower := by
  by_cases h : 65 ≤ c.toNat ∧ c.toNat ≤ 90
  · refine Char.toLower_eq_self _ ?_
    rw [Char.toNat_toLower_of_upper c h]
    omega
  · rw [Char.toLower_eq_self c h]
    exact Char.toLower_eq_self c h

theorem toLowercase_toLowercase (s : String) :
    toLowercase (toLowercase s) = toLowercase s := by
  show String.mk ((String.mk (s.data.map Char.toLower)).data.map Char.toLower) = _
  simp only [List.map_map]
  congr 1
  refine List.map_congr_left ?_
  intro c _
  exact Char.toLower_toLower c

theorem keys_deserialize_symbols_lowercase (raw : List (String × String))
    (p : String × String) (h : p ∈ deserialize_symbols raw) :
    toLowercase p.1 = p.1 := by
  rcases mem_keys_foldl _ [] p h with h1 | h1
  · simp at h1
  · rw [List.map_map] at h1
    obtain ⟨q, _, hq⟩ := List.mem_map.mp h1
    rw [← hq]
    exact toLowercase_toLowercase q.1

/-! ### Claim theorems -/

/-- C1: the claim fails on the code as written.  With the user override
table deserialized from the single entry `"Arch" ↦ "custom"` and the OS
identifier `Arch`, the module-level `get_symbol` returns `none`: it uses
the `Debug`-cased identifier as the lookup key without lowercasing it,
while both tables store lowercase keys, so the lookup misses the
override and the default alike.  The normalizing `OSConfig::get_symbol`,
which the claim describes and which `get_symbol` never calls, does find
the entry. -/
theorem c1_get_symbol_skips_normalization :
    get_symbol
      { format := "[$symbol]($style)", style := "bold white",
        symbols := deserialize_symbols [("Arch", "custom")],
        disabled := false }
      (Info.with_type OsType.Arch) = none
    ∧ OSConfig.get_symbol
      { format := "[$symbol]($style)", style := "bold white",
        symbols := deserialize_symbols [("Arch", "custom")],
        disabled := false } "Arch" = some "custom" :=
  ⟨rfl, rfl⟩

/-- C2: the claim fails on the code as written.  With an empty user
override table, symbol resolution returns `none` for every identifier of
the fixed enumeration, including the designated `Unknown` identifier:
the default table stores lowercase keys while the lookup key is the
`Debug`-cased identifier, so the default lookup always misses. -/
theorem c2_every_identifier_resolves_to_none (t : OsType) :
    get_symbol
      { format := "[$symbol]($style)", style := "bold white",
        symbols := [], disabled := false }
      (Info.with_type t) = none := by
  cases t <;> rfl

/-- C3: override precedence.  If the user-supplied symbol table contains
an entry under the key that `get_symbol` looks up (the `Debug` rendering
of the OS type), that entry's value is returned — including the empty
string, which is returned as a present value — and the default table is
not consulted; only when the user table has no entry under that key is
the default table consulted. -/
theorem c3_override_precedence (cfg : OSConfig) (os : Info) :
    (∀ v : String,
      imGet cfg.symbols os.os_type.debugFormat = some v →
        get_symbol cfg os = some v)
    ∧ (imGet cfg.symbols os.os_type.debugFormat = none →
        get_symbol cfg os
          = imGet OSConfig.default.symbols os.os_type.debugFormat) := by
  constructor
  · intro v hv
    simp [get_symbol, hv]
  · intro hv
    simp [get_symbol, hv]

/-- C3 witness: a user table with an empty-string entry under the exact
lookup key `"Arch"` makes resolution return the empty string as a
present value. -/
theorem c3_override_precedence_witness :
    get_symbol
      { format := "", style := "", symbols := [("Arch", "")],
        disabled := false }
      (Info.with_type OsType.Arch) = some "" :=
  (c3_override_precedence
    { format := "", style := "", symbols := [("Arch", "")],
      disabled := false }
    (Info.with_type OsType.Arch)).1 "" rfl

/-- C4: symbol-table construction is last-write-wins on normalized-key
collisions.  For every raw input and every key, the constructed table's
entry under a key is the value of the last raw pair whose lowercased key
equals it, values are kept unchanged, the constructed table's keys are
pairwise distinct (exactly one entry per normalized key), no error is
raised (construction is total), and in particular the raw input
`"Arch" ↦ "first", "arch" ↦ "second"` yields the single entry
`"arch" ↦ "second"`. -/
theorem c4_deserialize_symbols_last_write_wins
    (raw : List (String × String)) (k : String) :
    imGet (deserialize_symbols raw) k
      = (raw.reverse.find? (fun p => toLowercase p.1 == k)).map
          (fun p => p.2)
    ∧ ((deserialize_symbols raw).map (fun p => p.1)).Nodup
    ∧ deserialize_symbols [("Arch", "first"), ("arch", "second")]
        = [("arch", "second")] :=
  ⟨imGet_deserialize_symbols raw k, nodup_keys_deserialize_symbols raw, rfl⟩

/-- C5: key normalization invariant.  Every key of a user-supplied table
produced by `deserialize_symbols` and every key of the built-in default
table is a fixed point of lowercasing, whatever casing the author used;
consequently, in either table, two keys whose lowercasings agree are
equal, so no two keys differing only in case coexist as distinct
entries. -/
theorem c5_keys_lowercase (raw : List (String × String)) :
    (∀ p ∈ deserialize_symbols raw, toLowercase p.1 = p.1)
    ∧ (∀ p ∈ OSConfig.default.symbols, toLowercase p.1 = p.1)
    ∧ (∀ p ∈ deserialize_symbols raw, ∀ q ∈ deserialize_symbols raw,
        toLowercase p.1 = toLowercase q.1 → p.1 = q.1)
    ∧ (∀ p ∈ OSConfig.default.symbols, ∀ q ∈ OSConfig.default.symbols,
        toLowercase p.1 = toLowercase q.1 → p.1 = q.1) := by
  have hdef : ∀ p ∈ OSConfig.default.symbols, toLowercase p.1 = p.1 := by
    decide
  refine ⟨keys_deserialize_symbols_lowercase raw, hdef, ?_, ?_⟩
  · intro p hp q hq hpq
    rw [← keys_deserialize_symbols_lowercase raw p hp, hpq,
      keys_deserialize_symbols_lowercase raw q hq]
  · intro p hp q hq hpq
    rw [← hdef p hp, hpq, hdef q hq]

/-- C5 witness: the table built from the capitalized raw key `"Arch"`
stores the lowercase key `"arch"`, which lowercasing leaves unchanged. -/
theorem c5_keys_lowercase_witness :
    toLowercase "arch" = "arch" :=
  (c5_keys_lowercase [("Arch", "x")]).1 ("arch", "x") (by decide)

/-- C6: disabled short-circuit.  When the configuration has
`disabled = true`, `module` yields no output, whatever the format, style
and symbol table, and its result does not depend on the OS descriptor —
the attribute reader's answer is never consulted. -/
theorem c6_disabled_short_circuit (pipeline : FormatterPipeline)
    (config : OSConfig) (os os' : Info) (h : config.disabled = true) :
    module pipeline config os = none
    ∧ module pipeline config os = module pipeline config os' := by
  constructor
  · simp [module, h]
  · simp [module, h]

/-- C6 witness: the default configuration is disabled, and the module
yields no output on it. -/
theorem c6_disabled_short_circuit_witness :
    module (fun _ _ => Except.ok []) OSConfig.default Info.unknown
      = none :=
  (c6_disabled_short_circuit (fun _ _ => Except.ok []) OSConfig.default
    Info.unknown (Info.with_type OsType.Linux) rfl).1

/-- C7: sentinel filtering.  `get_bitness` is present exactly when the
reader's bitness is not the `Unknown` sentinel, `get_version` exactly
when the version is not the `Unknown` sentinel, and when the sentinel is
reported the result is absence, never a rendered string. -/
theorem c7_bitness_version_sentinel (os : Info) :
    ((get_bitness os).isSome ↔ os.bitness ≠ Bitness.Unknown)
    ∧ ((get_version os).isSome ↔ os.version ≠ Version.Unknown)
    ∧ (os.bitness = Bitness.Unknown → get_bitness os = none)
    ∧ (os.version = Version.Unknown → get_version os = none) := by
  obtain ⟨t, b, ver, cn, ed⟩ := os
  cases b <;> cases ver <;>
    simp [get_bitness, get_version, Option.filter]

/-- C7 witness: the all-unknown descriptor yields absence for both
bitness and version. -/
theorem c7_bitness_version_sentinel_witness :
    get_bitness Info.unknown = none ∧ get_version Info.unknown = none :=
  ⟨(c7_bitness_version_sentinel Info.unknown).2.2.1 rfl,
   (c7_bitness_version_sentinel Info.unknown).2.2.2 rfl⟩

/-- C8: codename and edition pass through.  `get_codename` and
`get_edition` return whatever the reader supplied, with no filtering:
a supplied value (even the empty string) is present unchanged, and an
absent value yields absence. -/
theorem c8_codename_edition_passthrough (os : Info) :
    (∀ s : String, os.codename = some s → get_codename os = some s)
    ∧ (os.codename = none → get_codename os = none)
    ∧ (∀ s : String, os.edition = some s → get_edition os = some s)
    ∧ (os.edition = none → get_edition os = none) := by
  refine ⟨?_, ?_, ?_, ?_⟩
  · intro s hs
    simp [get_codename, hs]
  · intro hs
    simp [get_codename, hs]
  · intro s hs
    simp [get_edition, hs]
  · intro hs
    simp [get_edition, hs]

/-- C8 witness: a supplied codename is returned unchanged and an absent
edition yields absence. -/
theorem c8_codename_edition_passthrough_witness :
    get_codename { Info.unknown with codename := some "jammy" }
      = some "jammy"
    ∧ get_edition Info.unknown = none :=
  ⟨(c8_codename_edition_passthrough
      { Info.unknown with codename := some "jammy" }).1 "jammy" rfl,
   (c8_codename_edition_passthrough Info.unknown).2.2.2 rfl⟩

/-- C9: template errors are contained.  Whenever the formatter pipeline
produces a template error, `module` yields no output at all — the error
is not propagated and no segments are produced. -/
theorem c9_formatter_error_yields_none (pipeline : FormatterPipeline)
    (config : OSConfig) (os : Info) (e : String)
    (h : pipeline config os = Except.error e) :
    module pipeline config os = none := by
  simp only [module, h]
  rw [ite_self]

/-- C9 witness: a concrete failing pipeline on an enabled configuration
yields no output. -/
theorem c9_formatter_error_yields_none_witness :
    module (fun _ _ => Except.error "template parse error")
      { format := "$symbol", style := "", symbols := [],
        disabled := false }
      Info.unknown = none :=
  c9_formatter_error_yields_none
    (fun _ _ => Except.error "template parse error")
    { format := "$symbol", style := "", symbols := [],
      disabled := false }
    Info.unknown "template parse error" rfl

/-- C10: the default configuration has `disabled = true`, so with no
user-supplied configuration the module yields no output for every OS
descriptor and every formatter pipeline. -/
theorem c10_default_config_yields_none (pipeline : FormatterPipeline)
    (os : Info) :
    module pipeline OSConfig.default os = none := rfl
